import Mathlib

/-!
Shallow embedding of the Wholesale-Order-System cart, order-submission,
filtering and bulk-import logic.

Modelling conventions:
* JavaScript numbers holding integral quantities (ids, stock, quantities)
  are modelled as `Int`; currency amounts are modelled as exact rationals.
* Nullable / optional TypeScript fields are modelled as `Option`.
* The Supabase backend is modelled as explicit state (lists of table rows)
  threaded through each operation; a `supabase.update(..).eq("id", id)` call
  becomes a map over the table that rewrites the matching row with the
  absolute field values the source computes.
* The source field `section` is rendered as `sectionName` (`section` is a
  Lean keyword); all other names follow the source.
-/

namespace Hook

/-- `CartItem` from `src/lib/hooks/useShoppingCart.ts`. -/
structure CartItem where
  productId : Int
  reference : String
  size : String
  description : String
  wholesale_price : ℚ
  quantity : Int
  stock : Int
  deriving Repr, DecidableEq

/-- `CustomerInfo` from `useShoppingCart.ts`. -/
structure CustomerInfo where
  name : String
  email : String
  company : Option String
  phone : Option String
  deriving Repr, DecidableEq

/-- `ProductVariant` from `useShoppingCart.ts`. -/
structure ProductVariant where
  id : Int
  reference : String
  size : Option String
  description : Option String
  wholesale_price : Option ℚ
  stock : Int
  reserved_stock : Option Int
  deriving Repr, DecidableEq

/-- `variant.stock - (variant.reserved_stock || 0)` as computed at the top of
`addToCart`. -/
def availableStock (v : ProductVariant) : Int :=
  v.stock - v.reserved_stock.getD 0

/-- `cart.find((item) => item.productId === productId)`. -/
def cartFind (cart : List CartItem) (productId : Int) : Option CartItem :=
  cart.find? (fun item => item.productId == productId)

/-- `cart.find(...)?.quantity || 0` (a cart item's quantity is never 0, so the
JS `|| 0` only turns a missed lookup into 0). -/
def currentCartQuantity (cart : List CartItem) (productId : Int) : Int :=
  ((cartFind cart productId).map (fun item => item.quantity)).getD 0

/-- The two failure messages of `addToCart`; `insufficientStock` carries the
number interpolated into "Not enough stock. Only {n} more units can be
added." -/
inductive CartMessage where
  | invalidQuantity
  | insufficientStock (canAdd : Int)
  deriving Repr, DecidableEq

/-- Return value of `addToCart` paired with the resulting cart state. -/
structure AddOutcome where
  success : Bool
  message : Option CartMessage
  cart : List CartItem
  deriving Repr, DecidableEq

/-- `addToCart` from `useShoppingCart.ts` (lines 82–121). -/
def addToCart (cart : List CartItem) (variant : ProductVariant) (quantity : Int) :
    AddOutcome :=
  let avail := availableStock variant
  let currentQty := currentCartQuantity cart variant.id
  if quantity ≤ 0 then
    { success := false, message := some CartMessage.invalidQuantity, cart := cart }
  else if currentQty + quantity > avail then
    { success := false
      message := some (CartMessage.insufficientStock (avail - currentQty))
      cart := cart }
  else
    match cartFind cart variant.id with
    | some _ =>
      { success := true, message := none
        cart := cart.map (fun item =>
          if item.productId == variant.id then
            { item with quantity := min (item.quantity + quantity) avail }
          else item) }
    | none =>
      { success := true, message := none
        cart := cart ++ [{ productId := variant.id
                           reference := variant.reference
                           size := variant.size.getD ""
                           description := variant.description.getD ""
                           wholesale_price := variant.wholesale_price.getD 0
                           quantity := quantity
                           stock := variant.stock }] }

/-- `updateQuantity` from `useShoppingCart.ts` (lines 129–152): missing item
and negative quantities are silent no-ops, the quantity is capped at the
item's stored stock snapshot, and a (capped) quantity of 0 removes the
item. -/
def updateQuantity (cart : List CartItem) (productId : Int) (newQuantity : Int) :
    List CartItem :=
  match cartFind cart productId with
  | none => cart
  | some itemInCart =>
    if newQuantity < 0 then cart
    else
      let capped := if newQuantity > itemInCart.stock then itemInCart.stock else newQuantity
      if capped = 0 then
        cart.filter (fun item => !(item.productId == productId))
      else
        cart.map (fun item =>
          if item.productId == productId then { item with quantity := capped } else item)

/-- `getTotalAmount`: `cart.reduce((total, item) => total + item.wholesale_price
* item.quantity, 0)`. -/
def getTotalAmount (cart : List CartItem) : ℚ :=
  cart.foldl (fun total item => total + item.wholesale_price * (item.quantity : ℚ)) 0

/-- A row of the `orders` table as inserted by `submitOrderToSupabase`. -/
structure OrderRow where
  id : Int
  customer_name : String
  customer_email : String
  customer_company : Option String
  customer_phone : Option String
  total_amount : ℚ
  status : String
  deriving Repr, DecidableEq

/-- A row of the `order_items` table. -/
structure OrderItemRow where
  order_id : Int
  product_id : Int
  quantity : Int
  unit_price : ℚ
  total_price : ℚ
  deriving Repr, DecidableEq

/-- Backend state touched by the hook's order submission: the two tables and
the id the next inserted order receives. -/
structure Backend where
  orders : List OrderRow
  order_items : List OrderItemRow
  nextOrderId : Int
  deriving Repr, DecidableEq

/-- Result of `submitOrderToSupabase` together with the backend state after
the call. -/
structure SubmitOutcome where
  success : Bool
  backend : Backend
  deriving Repr, DecidableEq

/-- `submitOrderToSupabase` from `useShoppingCart.ts` (lines 176–234) on the
happy path of the database client: the guard
`!customerInfo.name || !customerInfo.email || cart.length === 0`
short-circuits before any write. -/
def submitOrderToSupabase (backend : Backend) (customerInfo : CustomerInfo)
    (cart : List CartItem) : SubmitOutcome :=
  if customerInfo.name = "" ∨ customerInfo.email = "" ∨ cart = [] then
    { success := false, backend := backend }
  else
    let order : OrderRow :=
      { id := backend.nextOrderId
        customer_name := customerInfo.name
        customer_email := customerInfo.email
        customer_company := customerInfo.company
        customer_phone := customerInfo.phone
        total_amount := getTotalAmount cart
        status := "pending" }
    let items : List OrderItemRow := cart.map (fun item =>
      { order_id := order.id
        product_id := item.productId
        quantity := item.quantity
        unit_price := item.wholesale_price
        total_price := item.wholesale_price * (item.quantity : ℚ) })
    { success := true
      backend := { orders := backend.orders ++ [order]
                   order_items := backend.order_items ++ items
                   nextOrderId := backend.nextOrderId + 1 } }

end Hook

namespace PageA

/-- `Product` from the optimistic customer page (`src/unnamed/part_000`). -/
structure Product where
  id : Int
  reference : String
  image_url : Option String
  brand : Option String
  sectionName : Option String
  product_line : Option String
  description : Option String
  size : Option String
  bar_code : Option String
  retail_price : Option ℚ
  wholesale_price : Option ℚ
  stock : Int
  reserved_stock : Option Int
  deriving Repr, DecidableEq

/-- `ProductGroup` from `part_000`: group-level display fields plus the
variant rows sharing the reference. -/
structure ProductGroup where
  reference : String
  brand : Option String
  sectionName : Option String
  product_line : Option String
  description : Option String
  image_url : Option String
  retail_price : Option ℚ
  wholesale_price : Option ℚ
  variants : List Product
  deriving Repr, DecidableEq

/-- `priceRange` component of `Filters`. -/
structure PriceRange where
  min : ℚ
  max : ℚ
  deriving Repr, DecidableEq

/-- `Filters` from `part_000`. -/
structure Filters where
  brands : List String
  sections : List String
  productLines : List String
  priceRange : PriceRange
  inStockOnly : Bool
  deriving Repr, DecidableEq

/-- `getAvailableStock` from `part_000` (line 420):
`Math.max(0, variant.stock - (variant.reserved_stock || 0))`. -/
def getAvailableStock (variant : Product) : Int :=
  max 0 (variant.stock - variant.reserved_stock.getD 0)

/-- JavaScript `haystack.includes(needle)`: `needle` occurs contiguously in
`haystack`. -/
def strIncludes (haystack needle : String) : Bool :=
  decide (List.IsInfix needle.toList haystack.toList)

/-- `field?.toLowerCase().includes(term.toLowerCase())`: a `null` field never
matches. -/
def optIncludesLower (field : Option String) (term : String) : Bool :=
  match field with
  | some s => strIncludes s.toLower term.toLower
  | none => false

/-- The search predicate of `applyFilters`: the term matches any of
description / brand / reference / section / product_line,
case-insensitively. -/
def matchesSearch (group : ProductGroup) (searchTerm : String) : Bool :=
  optIncludesLower group.description searchTerm ||
  optIncludesLower group.brand searchTerm ||
  strIncludes group.reference.toLower searchTerm.toLower ||
  optIncludesLower group.sectionName searchTerm ||
  optIncludesLower group.product_line searchTerm

/-- `group.brand && filters.brands.includes(group.brand)` (and likewise for
sections and product lines). -/
def memberOfSelected (field : Option String) (selected : List String) : Bool :=
  (field.map (fun s => selected.contains s)).getD false

/-- `applyFilters` from `part_000` (lines 221–264): the sequence of
conditional `filter` passes exactly as in the source (search, brands,
sections, product lines, unconditional price pass, stock pass). -/
def applyFilters (productGroups : List ProductGroup) (searchTerm : String)
    (filters : Filters) : List ProductGroup :=
  let f1 := if searchTerm ≠ "" then
      productGroups.filter (fun group => matchesSearch group searchTerm)
    else productGroups
  let f2 := if filters.brands.length > 0 then
      f1.filter (fun group => memberOfSelected group.brand filters.brands)
    else f1
  let f3 := if filters.sections.length > 0 then
      f2.filter (fun group => memberOfSelected group.sectionName filters.sections)
    else f2
  let f4 := if filters.productLines.length > 0 then
      f3.filter (fun group => memberOfSelected group.product_line filters.productLines)
    else f3
  let f5 := f4.filter (fun group =>
      decide (filters.priceRange.min ≤ group.wholesale_price.getD 0) &&
      decide (group.wholesale_price.getD 0 ≤ filters.priceRange.max))
  if filters.inStockOnly then
    f5.filter (fun group => group.variants.any (fun variant => decide (0 < getAvailableStock variant)))
  else f5

/-- Modelled from the spec (§4.2 contract): the conjunction of the filter
constraints a retained group must satisfy, with empty selections imposing no
constraint.  Used to compare against the sequential-`filter` implementation
`applyFilters`. -/
def specFilterPred (searchTerm : String) (filters : Filters) (group : ProductGroup) : Bool :=
  (searchTerm == "" || matchesSearch group searchTerm) &&
  (filters.brands.isEmpty || memberOfSelected group.brand filters.brands) &&
  (filters.sections.isEmpty || memberOfSelected group.sectionName filters.sections) &&
  (filters.productLines.isEmpty || memberOfSelected group.product_line filters.productLines) &&
  (decide (filters.priceRange.min ≤ group.wholesale_price.getD 0) &&
    decide (group.wholesale_price.getD 0 ≤ filters.priceRange.max)) &&
  (!filters.inStockOnly || group.variants.any (fun variant => decide (0 < getAvailableStock variant)))

/-- `updateQuantity` from `part_000` (lines 334–340): a quantity of 0
removes the item; any other value replaces the item's quantity verbatim —
this page has no negative-quantity guard and no cap at the stock
snapshot (its cart item shape is identical to the hook's `CartItem`). -/
def updateQuantity (cart : List Hook.CartItem) (productId newQuantity : Int) :
    List Hook.CartItem :=
  if newQuantity = 0 then
    cart.filter (fun item => !(item.productId == productId))
  else
    cart.map (fun item =>
      if item.productId == productId then { item with quantity := newQuantity } else item)

/-- Backend state touched by the optimistic page's `submitOrder`
(`part_000` lines 346–418): the two tables, the confirmation e-mails posted
to `/api/send-customer-confirmation` (recorded by order id), and the id the
next order receives. -/
structure Backend where
  orders : List Hook.OrderRow
  order_items : List Hook.OrderItemRow
  confirmationsSent : List Int
  nextOrderId : Int
  deriving Repr, DecidableEq

/-- Session state the optimistic page's `submitOrder` reads and resets. -/
structure Session where
  cart : List Hook.CartItem
  customerInfo : Hook.CustomerInfo
  deriving Repr, DecidableEq

/-- Result of `PageA.submitOrder`: whether the alert was the success one, and
the backend and session afterwards. -/
structure SubmitResult where
  success : Bool
  backend : Backend
  session : Session
  deriving Repr, DecidableEq

/-- `submitOrder` from `part_000` (lines 346–418) on the happy path of the
database client: the guard
`!customerInfo.name || !customerInfo.email || cart.length === 0`
returns before any insert or e-mail dispatch; on success the order and its
items are inserted, one confirmation e-mail is posted and the cart and the
customer form are cleared. -/
def submitOrder (backend : Backend) (session : Session) : SubmitResult :=
  if session.customerInfo.name = "" ∨ session.customerInfo.email = "" ∨ session.cart = [] then
    { success := false, backend := backend, session := session }
  else
    let order : Hook.OrderRow :=
      { id := backend.nextOrderId
        customer_name := session.customerInfo.name
        customer_email := session.customerInfo.email
        customer_company := session.customerInfo.company
        customer_phone := session.customerInfo.phone
        total_amount := Hook.getTotalAmount session.cart
        status := "pending" }
    let items : List Hook.OrderItemRow := session.cart.map (fun item =>
      { order_id := order.id
        product_id := item.productId
        quantity := item.quantity
        unit_price := item.wholesale_price
        total_price := item.wholesale_price * (item.quantity : ℚ) })
    { success := true
      backend := { orders := backend.orders ++ [order]
                   order_items := backend.order_items ++ items
                   confirmationsSent := backend.confirmationsSent ++ [order.id]
                   nextOrderId := backend.nextOrderId + 1 }
      session := { cart := []
                   customerInfo := { name := "", email := "", company := some "", phone := some "" } } }

end PageA

namespace PageB

/-- `Product` from the eager-reservation customer page
(`src/unnamed/part_006`): here `reserved_stock` is a plain number column. -/
structure Product where
  id : Int
  reference : String
  image_url : Option String
  brand : Option String
  sectionName : Option String
  product_line : Option String
  description : Option String
  size : Option String
  bar_code : Option String
  retail_price : Option ℚ
  wholesale_price : Option ℚ
  stock : Int
  reserved_stock : Int
  deriving Repr, DecidableEq

/-- `CartItem extends Product` with a quantity: the cart stores the full
product snapshot taken when the item was first added. -/
structure CartItem extends Product where
  quantity : Int
  deriving Repr, DecidableEq

/-- `Customer` from `part_006`. -/
structure Customer where
  id : String
  business_name : String
  contact_name : String
  email : String
  phone : String
  deriving Repr, DecidableEq

/-- `supabase.from("products").update({reserved_stock: r}).eq("id", id)`:
every row whose id matches receives the absolute value `r`. -/
def dbUpdateReserved (db : List Product) (id : Int) (newReserved : Int) : List Product :=
  db.map (fun p => if p.id == id then { p with reserved_stock := newReserved } else p)

/-- `supabase.from("products").update({stock: s, reserved_stock: r}).eq("id", id)`. -/
def dbUpdateStockReserved (db : List Product) (id : Int) (newStock newReserved : Int) :
    List Product :=
  db.map (fun p =>
    if p.id == id then { p with stock := newStock, reserved_stock := newReserved } else p)

/-- `addToCart` from `part_006` (lines 182–216): one unit per call; when the
cart already holds all available units nothing happens, otherwise the page
writes `product.reserved_stock + 1` (computed from the snapshot it was
called with) back to the row and puts the unit in the cart. -/
def addToCart (db : List Product) (cart : List CartItem) (product : Product) :
    List Product × List CartItem :=
  let availableStock := product.stock - product.reserved_stock
  let currentCartQuantity :=
    ((cart.find? (fun item => item.id == product.id)).map (fun item => item.quantity)).getD 0
  if currentCartQuantity ≥ availableStock then (db, cart)
  else
    let db1 := dbUpdateReserved db product.id (product.reserved_stock + 1)
    let cart1 :=
      match cart.find? (fun item => item.id == product.id) with
      | some _ => cart.map (fun item =>
          if item.id == product.id then { item with quantity := item.quantity + 1 } else item)
      | none => cart ++ [{ toProduct := product, quantity := 1 }]
    (db1, cart1)

/-- `updateQuantity` from `part_006` (lines 218–262): removing an item writes
`max(0, cartItem.reserved_stock - cartItem.quantity)` from the cart snapshot;
any other change writes `max(0, product.reserved_stock + quantityDiff)` from
the locally fetched `products` state. -/
def updateQuantity (db : List Product) (products : List Product) (cart : List CartItem)
    (productId : Int) (newQuantity : Int) : List Product × List CartItem :=
  match cart.find? (fun item => item.id == productId) with
  | none => (db, cart)
  | some cartItem =>
    let quantityDiff := newQuantity - cartItem.quantity
    if newQuantity = 0 then
      (dbUpdateReserved db productId (max 0 (cartItem.reserved_stock - cartItem.quantity)),
       cart.filter (fun item => !(item.id == productId)))
    else
      match products.find? (fun p => p.id == productId) with
      | none => (db, cart)
      | some product =>
        (dbUpdateReserved db productId (max 0 (product.reserved_stock + quantityDiff)),
         cart.map (fun item =>
           if item.id == productId then { item with quantity := newQuantity } else item))

/-- `getTotalAmount` from `part_006`:
`cart.reduce((total, item) => total + (item.wholesale_price || 0) * item.quantity, 0)`. -/
def getTotalAmount (cart : List CartItem) : ℚ :=
  cart.foldl (fun total item => total + item.wholesale_price.getD 0 * (item.quantity : ℚ)) 0

/-- The inventory-conversion loop of `part_006`'s `submitOrder`
(lines 304–315): for each cart item the row is rewritten with the absolute
values `max(0, item.stock - item.quantity)` and
`max(0, (item.reserved_stock || 0) - item.quantity)` taken from the cart
snapshot. -/
def convertReservations (db : List Product) (cart : List CartItem) : List Product :=
  cart.foldl (fun acc item =>
    dbUpdateStockReserved acc item.id
      (max 0 (item.stock - item.quantity))
      (max 0 (item.reserved_stock - item.quantity))) db

/-- `orders` row as inserted by `part_006`'s `submitOrder`. -/
structure OrderRow where
  id : Int
  customer_id : String
  customer_name : String
  customer_email : String
  customer_company : String
  customer_phone : String
  total_amount : ℚ
  status : String
  deriving Repr, DecidableEq

/-- `order_items` row as inserted by `part_006`'s `submitOrder`. -/
structure OrderItemRow where
  order_id : Int
  product_id : Int
  quantity : Int
  unit_price : Option ℚ
  total_price : ℚ
  deriving Repr, DecidableEq

/-- Backend state touched by `part_006`'s `submitOrder`: the products table,
the two order tables, the notification posts (admin and customer, recorded
by order id) and the next order id. -/
structure Backend where
  db : List Product
  orders : List OrderRow
  order_items : List OrderItemRow
  adminNotifications : List Int
  confirmations : List Int
  nextOrderId : Int
  deriving Repr, DecidableEq

/-- Result of `PageB.submitOrder`. -/
structure SubmitResult where
  backend : Backend
  cart : List CartItem
  success : Bool
  deriving Repr, DecidableEq

/-- `submitOrder` from `part_006` (lines 268–346) on the happy path of the
database client: guard, order insert, items insert, reservation conversion
(`convertReservations`), the two e-mail posts, then the cart is cleared. -/
def submitOrder (backend : Backend) (customer : Option Customer) (cart : List CartItem) :
    SubmitResult :=
  match customer with
  | none => { backend := backend, cart := cart, success := false }
  | some customer =>
    if cart = [] then { backend := backend, cart := cart, success := false }
    else
      let order : OrderRow :=
        { id := backend.nextOrderId
          customer_id := customer.id
          customer_name := customer.contact_name
          customer_email := customer.email
          customer_company := customer.business_name
          customer_phone := customer.phone
          total_amount := getTotalAmount cart
          status := "pending" }
      let items : List OrderItemRow := cart.map (fun item =>
        { order_id := order.id
          product_id := item.id
          quantity := item.quantity
          unit_price := item.wholesale_price
          total_price := item.wholesale_price.getD 0 * (item.quantity : ℚ) })
      { backend := { db := convertReservations backend.db cart
                     orders := backend.orders ++ [order]
                     order_items := backend.order_items ++ items
                     adminNotifications := backend.adminNotifications ++ [order.id]
                     confirmations := backend.confirmations ++ [order.id]
                     nextOrderId := backend.nextOrderId + 1 }
        cart := []
        success := true }

end PageB

namespace Import

/-- A candidate `ProductVariant` built from one spreadsheet row by the
column-mapping loop of `processImport` (`src/unnamed/part_003`): `stock`
defaults to 0, an empty barcode cell becomes `undefined` (here `none`), and
prices that fail to parse stay `undefined`. -/
structure Candidate where
  reference : String
  size : String
  stock : Nat
  bar_code : Option String
  brand : Option String
  description : Option String
  retail_price : Option ℚ
  wholesale_price : Option ℚ
  deriving Repr, DecidableEq

/-- The row-validation step: rows with a missing reference or size are
dropped (each contributing one entry to `errors`). -/
def validCandidates (rows : List Candidate) : List Candidate :=
  rows.filter (fun v => !(v.reference == "") && !(v.size == ""))

/-- `barcodeGroups.get(barcode).push(variant)` on a JS `Map`: append to the
entry of the given barcode, or add a fresh entry at the end (JS `Map`
iteration follows insertion order). -/
def insertGrouped (groups : List (String × List Candidate)) (barcode : String)
    (v : Candidate) : List (String × List Candidate) :=
  match groups with
  | [] => [(barcode, [v])]
  | (b, vs) :: rest =>
    if b = barcode then (b, vs ++ [v]) :: rest
    else (b, vs) :: insertGrouped rest barcode v

/-- The row-parsing pass of `processImport`: barcode-less candidates go
straight to `variants`, the others are grouped by barcode. -/
def buildGroupsAux (rows : List Candidate)
    (acc : List Candidate × List (String × List Candidate)) :
    List Candidate × List (String × List Candidate) :=
  match rows with
  | [] => acc
  | v :: rest =>
    match v.bar_code with
    | some b => buildGroupsAux rest (acc.1, insertGrouped acc.2 b v)
    | none => buildGroupsAux rest (acc.1 ++ [v], acc.2)

/-- `(variants-so-far, barcodeGroups)` after the row-parsing pass. -/
def buildGroups (rows : List Candidate) :
    List Candidate × List (String × List Candidate) :=
  buildGroupsAux rows ([], [])

/-- Merging one barcode group: a single member passes through; otherwise the
first record wins every field and `stock` becomes the group's stock sum. -/
def mergeGroup : List Candidate → List Candidate
  | [] => []
  | [v] => [v]
  | v :: w :: rest =>
    [{ v with stock := ((v :: w :: rest).map (fun c => c.stock)).sum }]

/-- The group-processing loop of `processImport` (lines 339–350): merged
records are appended after the barcode-less ones, and each group of size `k
> 1` adds `k - 1` to `mergedCount`. -/
def mergeGroups (groups : List (String × List Candidate)) : List Candidate × Nat :=
  groups.foldl (fun acc g =>
    if g.2.length = 1 then (acc.1 ++ g.2, acc.2)
    else (acc.1 ++ mergeGroup g.2, acc.2 + (g.2.length - 1))) ([], 0)

/-- The produced (post-validation, post-merge) rows together with the
`merged` counter. -/
def mergeByBarcode (rows : List Candidate) : List Candidate × Nat :=
  let built := buildGroups rows
  let merged := mergeGroups built.2
  (built.1 ++ merged.1, merged.2)

/-- What a JS `Map` built from `(barcode, group)` pairs answers for a
barcode: the group of the first entry carrying it (keys are unique in the
built list, later same-key pushes extend that entry in place). -/
def lookupGroup : List (String × List Candidate) → String → List Candidate
  | [], _ => []
  | g :: rest, barcode => if g.1 == barcode then g.2 else lookupGroup rest barcode

/-- A row of the `products` table as seen by the import (the columns the
duplicate check selects, plus the rest of the candidate fields so inserts
and updates can be modelled). -/
structure Row where
  id : Nat
  reference : String
  size : Option String
  stock : Nat
  bar_code : Option String
  brand : Option String
  description : Option String
  retail_price : Option ℚ
  wholesale_price : Option ℚ
  deriving Repr, DecidableEq

/-- `` `${reference.toLowerCase()}_${size.toLowerCase()}` `` -/
def rowKey (reference size : String) : String :=
  reference.toLower ++ "_" ++ size.toLower

/-- The key of a catalog row: `(p.size || "")` guards a null size. -/
def rowKeyOf (r : Row) : String :=
  rowKey r.reference (r.size.getD "")

/-- `existingProductsMap.get(key)`: the JS `Map` constructor lets later
entries overwrite earlier ones, so lookup returns the last matching row. -/
def mapLookup (catalog : List Row) (key : String) : Option Row :=
  (catalog.filter (fun r => rowKeyOf r == key)).getLast?

/-- The `hasChanges` test of update mode: stock differs, or a parsed price
differs from the stored one (`undefined` prices are not compared). -/
def hasChanges (v : Candidate) (r : Row) : Bool :=
  !(v.stock == r.stock) ||
  (v.wholesale_price.isSome && !(v.wholesale_price == r.wholesale_price)) ||
  (v.retail_price.isSome && !(v.retail_price == r.retail_price))

/-- The two duplicate-handling modes. -/
inductive Mode where
  | skip
  | update
  deriving Repr, DecidableEq

/-- The classification the per-variant loop produces: rows queued for batch
insert, `(existing id, variant)` pairs queued for update, and the skipped
counter. -/
structure UpsertPlan where
  toInsert : List Candidate
  toUpdate : List (Nat × Candidate)
  skipped : Nat
  deriving Repr, DecidableEq

/-- One iteration of the per-variant loop of `processImport`
(lines 356–383): the produced variant is looked up in the catalog snapshot
taken once at pipeline start and queued or counted accordingly. -/
def classifyStep (mode : Mode) (catalog : List Row) (plan : UpsertPlan)
    (v : Candidate) : UpsertPlan :=
  match mapLookup catalog (rowKey v.reference v.size) with
  | some existing =>
    match mode with
    | Mode.skip => { plan with skipped := plan.skipped + 1 }
    | Mode.update =>
      if hasChanges v existing then
        { plan with toUpdate := plan.toUpdate ++ [(existing.id, v)] }
      else
        { plan with skipped := plan.skipped + 1 }
  | none => { plan with toInsert := plan.toInsert ++ [v] }

/-- The whole per-variant loop. -/
def classify (mode : Mode) (catalog : List Row) (produced : List Candidate) : UpsertPlan :=
  produced.foldl (classifyStep mode catalog) { toInsert := [], toUpdate := [], skipped := 0 }

/-- The table row a freshly inserted candidate becomes. -/
def rowOfCandidate (id : Nat) (v : Candidate) : Row :=
  { id := id
    reference := v.reference
    size := some v.size
    stock := v.stock
    bar_code := v.bar_code
    brand := v.brand
    description := v.description
    retail_price := v.retail_price
    wholesale_price := v.wholesale_price }

/-- The batch-insert loop: rows are appended to the table, each receiving
the next serial id. -/
def insertRows (catalog : List Row) (nextId : Nat) (vs : List Candidate) :
    List Row × Nat :=
  match vs with
  | [] => (catalog, nextId)
  | v :: rest => insertRows (catalog ++ [rowOfCandidate nextId v]) (nextId + 1) rest

/-- `supabase.from("products").update({...variant}).eq("id", id)`: the
matching row receives every field of the variant. -/
def applyUpdate (catalog : List Row) (id : Nat) (v : Candidate) : List Row :=
  catalog.map (fun r =>
    if r.id == id then
      { r with reference := v.reference, size := some v.size, stock := v.stock
               bar_code := v.bar_code, brand := v.brand, description := v.description
               retail_price := v.retail_price, wholesale_price := v.wholesale_price }
    else r)

/-- Proof support: the effect the update queue has on one table row —
`applyUpdate c id v` is the pointwise application of `updRowStep` with
`(id, v)`. -/
def updRowStep (r : Row) (u : Nat × Candidate) : Row :=
  if r.id == u.1 then
    { r with reference := u.2.reference, size := some u.2.size, stock := u.2.stock
             bar_code := u.2.bar_code, brand := u.2.brand, description := u.2.description
             retail_price := u.2.retail_price, wholesale_price := u.2.wholesale_price }
  else r

/-- The aggregate counters `processImport` surfaces. -/
structure ImportCounts where
  success : Nat
  updated : Nat
  skipped : Nat
  merged : Nat
  errors : Nat
  deriving Repr, DecidableEq

/-- The state of a completed import run: counters, table and next serial id. -/
structure RunResult where
  counts : ImportCounts
  catalog : List Row
  nextId : Nat
  deriving Repr, DecidableEq

/-- One complete `processImport` run on the happy path of the database
client: validation, barcode merge, classification against the catalog
snapshot, batch inserts, then the updates. -/
def runImport (mode : Mode) (catalog : List Row) (nextId : Nat)
    (rows : List Candidate) : RunResult :=
  let valid := validCandidates rows
  let produced := mergeByBarcode valid
  let plan := classify mode catalog produced.1
  let inserted := insertRows catalog nextId plan.toInsert
  let catalog2 := plan.toUpdate.foldl (fun c u => applyUpdate c u.1 u.2) inserted.1
  { counts := { success := plan.toInsert.length
                updated := plan.toUpdate.length
                skipped := plan.skipped
                merged := produced.2
                errors := rows.length - valid.length }
    catalog := catalog2
    nextId := inserted.2 }

end Import

/-! Concrete states used by counterexamples and witnesses. -/

/-- Variant of the spec scenario: stock 5, reserved 2. -/
def c1Variant : Hook.ProductVariant :=
  { id := 1, reference := "A", size := none, description := none
    wholesale_price := none, stock := 5, reserved_stock := some 2 }

/-- A cart whose recorded quantity (10) already exceeds the available stock
of the variant snapshot below. -/
def c2Cart : List Hook.CartItem :=
  [{ productId := 1, reference := "A", size := "", description := ""
     wholesale_price := 0, quantity := 10, stock := 10 }]

/-- A later snapshot of the same variant: stock has dropped to 3. -/
def c2Variant : Hook.ProductVariant :=
  { id := 1, reference := "A", size := none, description := none
    wholesale_price := none, stock := 3, reserved_stock := none }

/-- Variant with available stock 5, used to witness the amended C2. -/
def c2Variant2 : Hook.ProductVariant :=
  { id := 2, reference := "B", size := none, description := none
    wholesale_price := none, stock := 5, reserved_stock := some 2 }

/-- An empty backend for the C3 witness. -/
def c3Backend : Hook.Backend :=
  { orders := [], order_items := [], nextOrderId := 1 }

/-- Customer info with an empty e-mail address. -/
def c3Info : Hook.CustomerInfo :=
  { name := "Ada", email := "", company := none, phone := none }

/-- A non-empty cart for the C3 witness. -/
def c3Cart : List Hook.CartItem :=
  [{ productId := 1, reference := "A", size := "", description := ""
     wholesale_price := 2, quantity := 1, stock := 5 }]

/-- An empty backend for the optimistic page, C3 witness. -/
def c3BackendA : PageA.Backend :=
  { orders := [], order_items := [], confirmationsSent := [], nextOrderId := 1 }

/-- The product row as it sits in the database at submit time: five units
reserved in total. -/
def c4Product : PageB.Product :=
  { id := 1, reference := "R", image_url := none, brand := none
    sectionName := none, product_line := none, description := none
    size := none, bar_code := none, retail_price := none
    wholesale_price := none, stock := 5, reserved_stock := 5 }

/-- The cart snapshot of the same product: taken when only three units were
reserved; two units are in the cart. -/
def c4Item : PageB.CartItem :=
  { toProduct := { c4Product with reserved_stock := 3 }, quantity := 2 }

/-- Backend holding the single product row. -/
def c4Backend : PageB.Backend :=
  { db := [c4Product], orders := [], order_items := []
    adminNotifications := [], confirmations := [], nextOrderId := 1 }

/-- A customer for the eager-reservation page. -/
def c4Customer : PageB.Customer :=
  { id := "c1", business_name := "B", contact_name := "N", email := "n@b", phone := "1" }

/-- A product row whose cart snapshot matches the database row, used to
witness the amended C4. -/
def c4Product2 : PageB.Product :=
  { id := 2, reference := "S", image_url := none, brand := none
    sectionName := none, product_line := none, description := none
    size := none, bar_code := none, retail_price := none
    wholesale_price := none, stock := 5, reserved_stock := 2 }

/-- Cart item whose snapshot equals `c4Product2`, quantity 2. -/
def c4Item2 : PageB.CartItem :=
  { toProduct := c4Product2, quantity := 2 }

/-- Backend holding only `c4Product2`. -/
def c4Backend2 : PageB.Backend :=
  { db := [c4Product2], orders := [], order_items := []
    adminNotifications := [], confirmations := [], nextOrderId := 1 }

/-- First import row of the spec's merge example: barcode `x1`, stock 2. -/
def c5Row1 : Import.Candidate :=
  { reference := "10734703", size := "10", stock := 2, bar_code := some "x1"
    brand := some "Puma", description := none, retail_price := none, wholesale_price := none }

/-- Second import row: same barcode `x1`, stock 3, different size field. -/
def c5Row2 : Import.Candidate :=
  { reference := "10734703", size := "10.5", stock := 3, bar_code := some "x1"
    brand := some "Puma", description := none, retail_price := none, wholesale_price := none }

/-- An import row without barcode. -/
def c5Row3 : Import.Candidate :=
  { reference := "10734703", size := "11", stock := 1, bar_code := none
    brand := some "Puma", description := none, retail_price := none, wholesale_price := none }

/-- A single valid import row for the C6 witness. -/
def c6Row : Import.Candidate :=
  { reference := "10734703", size := "10", stock := 2, bar_code := none
    brand := none, description := none, retail_price := none, wholesale_price := none }

/-- A cart item with snapshot stock 0 (the cap target of `updateQuantity`). -/
def c7Cart : List Hook.CartItem :=
  [{ productId := 1, reference := "A", size := "", description := ""
     wholesale_price := 0, quantity := 2, stock := 0 }]

/-- A cart item with snapshot stock 5, used to witness the amended C7. -/
def c7Item : Hook.CartItem :=
  { productId := 1, reference := "A", size := "", description := ""
    wholesale_price := 0, quantity := 2, stock := 5 }

/-- Cart holding just `c7Item`. -/
def c7Cart2 : List Hook.CartItem := [c7Item]

/-- Two-element cart for the C9 witness. -/
def c9CartA : List Hook.CartItem :=
  [{ productId := 1, reference := "A", size := "", description := ""
     wholesale_price := 2, quantity := 3, stock := 9 },
   { productId := 2, reference := "B", size := "", description := ""
     wholesale_price := 5, quantity := 1, stock := 9 }]

/-- The same cart with the items swapped. -/
def c9CartB : List Hook.CartItem :=
  [{ productId := 2, reference := "B", size := "", description := ""
     wholesale_price := 5, quantity := 1, stock := 9 },
   { productId := 1, reference := "A", size := "", description := ""
     wholesale_price := 2, quantity := 3, stock := 9 }]

/-- A database obeying the reservation invariant, for the C10 witness. -/
def c10Db : List PageB.Product :=
  [{ id := 1, reference := "R", image_url := none, brand := none
     sectionName := none, product_line := none, description := none
     size := none, bar_code := none, retail_price := none
     wholesale_price := none, stock := 5, reserved_stock := 1 }]

/-- A cart holding one unit of the `c10Db` product. -/
def c10Cart : List PageB.CartItem :=
  [{ toProduct := { id := 1, reference := "R", image_url := none, brand := none
                    sectionName := none, product_line := none, description := none
                    size := none, bar_code := none, retail_price := none
                    wholesale_price := none, stock := 5, reserved_stock := 0 }
     quantity := 1 }]

/-- Backend for the C10 witness. -/
def c10Backend : PageB.Backend :=
  { db := c10Db, orders := [], order_items := []
    adminNotifications := [], confirmations := [], nextOrderId := 1 }

/-- The product snapshot used by the C10 witness. -/
def c10Product : PageB.Product :=
  { id := 1, reference := "R", image_url := none, brand := none
    sectionName := none, product_line := none, description := none
    size := none, bar_code := none, retail_price := none
    wholesale_price := none, stock := 5, reserved_stock := 1 }

/-- A customer for the C10 witness. -/
def c10Customer : PageB.Customer :=
  { id := "c2", business_name := "B", contact_name := "N", email := "n@b", phone := "1" }

/-! Shared helper lemmas. -/

theorem find?_map_pred {α : Type} (l : List α) (f : α → α) (p : α → Bool)
    (hf : ∀ a, p (f a) = p a) :
    (l.map f).find? p = (l.find? p).map f := by
  induction l with
  | nil => rfl
  | cons a t ih =>
    by_cases h : p a
    · rw [List.map_cons, List.find?_cons_of_pos _ (by rw [hf a]; exact h),
        List.find?_cons_of_pos _ h, Option.map_some']
    · rw [List.map_cons, List.find?_cons_of_neg _ (by rw [hf a]; exact h),
        List.find?_cons_of_neg _ h, ih]

theorem find?_append_none {α : Type} (l1 l2 : List α) (p : α → Bool)
    (h : l1.find? p = none) : (l1 ++ l2).find? p = l2.find? p := by
  induction l1 with
  | nil => rfl
  | cons a t ih =>
    by_cases hp : p a
    · rw [List.find?_cons_of_pos _ hp] at h
      exact absurd h (by simp)
    · rw [List.find?_cons_of_neg _ hp] at h
      rw [List.cons_append, List.find?_cons_of_neg _ hp]
      exact ih h

theorem foldl_add_map_sum {α : Type} (f : α → ℚ) (l : List α) (a : ℚ) :
    l.foldl (fun t i => t + f i) a = a + (l.map f).sum := by
  induction l generalizing a with
  | nil => simp
  | cons x t ih => simp [List.foldl_cons, ih, add_assoc]

/-- C1: `addToCart` fails (success = false, cart unchanged) with the
invalid-quantity message when the requested quantity is ≤ 0, and with the
insufficient-stock message — citing `availableStock - currentCartQuantity`
as the number of units still addable — when the current cart quantity plus
the request exceeds the available stock; with an empty cart and a variant
with stock 5 and reserved 2, requesting 4 fails citing 3 more units. -/
theorem c1_addToCart_failures (cart : List Hook.CartItem)
    (variant : Hook.ProductVariant) (quantity : Int) :
    (quantity ≤ 0 →
      Hook.addToCart cart variant quantity =
        { success := false, message := some Hook.CartMessage.invalidQuantity
          cart := cart }) ∧
    (0 < quantity →
      Hook.currentCartQuantity cart variant.id + quantity > Hook.availableStock variant →
      Hook.addToCart cart variant quantity =
        { success := false
          message := some (Hook.CartMessage.insufficientStock
            (Hook.availableStock variant - Hook.currentCartQuantity cart variant.id))
          cart := cart }) ∧
    (Hook.currentCartQuantity cart variant.id + quantity > Hook.availableStock variant →
      (Hook.addToCart cart variant quantity).success = false ∧
      (Hook.addToCart cart variant quantity).cart = cart) ∧
    Hook.addToCart [] c1Variant 4 =
      { success := false
        message := some (Hook.CartMessage.insufficientStock 3), cart := [] } := by
  refine ⟨?_, ?_, ?_, ?_⟩
  · intro h
    simp only [Hook.addToCart]
    rw [if_pos h]
  · intro h1 h2
    simp only [Hook.addToCart]
    rw [if_neg (by omega), if_pos h2]
  · intro h2
    by_cases h1 : quantity ≤ 0
    · simp only [Hook.addToCart]
      rw [if_pos h1]
      exact ⟨rfl, rfl⟩
    · simp only [Hook.addToCart]
      rw [if_neg h1, if_pos h2]
      exact ⟨rfl, rfl⟩
  · decide

/-- Witness for C1 at quantity 0 and at the spec scenario (stock 5,
reserved 2, request 4). -/
theorem c1_witness :
    Hook.addToCart [] c1Variant 0 =
      { success := false, message := some Hook.CartMessage.invalidQuantity
        cart := [] } ∧
    Hook.addToCart [] c1Variant 4 =
      { success := false
        message := some (Hook.CartMessage.insufficientStock 3), cart := [] } := by
  constructor
  · exact (c1_addToCart_failures [] c1Variant 0).1 (by decide)
  · exact ((c1_addToCart_failures [] c1Variant 4).2.1 (by decide) (by decide)).trans (by decide)

/-- C3: order submission fails and performs no backend write whenever the
customer name is empty, the e-mail is empty, or the cart is empty — both
for the hook's `submitOrderToSupabase` and for the optimistic page's
`submitOrder` (whose backend also records notification posts). -/
theorem c3_validation_blocks_writes (backend : Hook.Backend) (info : Hook.CustomerInfo)
    (cart : List Hook.CartItem) (backendA : PageA.Backend) (session : PageA.Session) :
    (info.name = "" ∨ info.email = "" ∨ cart = [] →
      Hook.submitOrderToSupabase backend info cart =
        { success := false, backend := backend }) ∧
    (session.customerInfo.name = "" ∨ session.customerInfo.email = "" ∨ session.cart = [] →
      PageA.submitOrder backendA session =
        { success := false, backend := backendA, session := session }) := by
  constructor
  · intro h
    simp only [Hook.submitOrderToSupabase]
    rw [if_pos h]
  · intro h
    simp only [PageA.submitOrder]
    rw [if_pos h]

/-- Witness for C3: an order with an empty e-mail leaves both backends
untouched. -/
theorem c3_witness :
    Hook.submitOrderToSupabase c3Backend c3Info c3Cart =
      { success := false, backend := c3Backend } ∧
    PageA.submitOrder c3BackendA { cart := c3Cart, customerInfo := c3Info } =
      { success := false, backend := c3BackendA
        session := { cart := c3Cart, customerInfo := c3Info } } := by
  constructor
  · exact (c3_validation_blocks_writes c3Backend c3Info c3Cart c3BackendA
      { cart := c3Cart, customerInfo := c3Info }).1 (Or.inr (Or.inl rfl))
  · exact (c3_validation_blocks_writes c3Backend c3Info c3Cart c3BackendA
      { cart := c3Cart, customerInfo := c3Info }).2 (Or.inr (Or.inl rfl))

/-- C9: `getTotalAmount` equals the sum of `wholesale_price * quantity` over
the cart, and is invariant under permutations of the cart list. -/
theorem c9_getTotalAmount (cart cart2 : List Hook.CartItem) :
    Hook.getTotalAmount cart =
      (cart.map (fun item => item.wholesale_price * (item.quantity : ℚ))).sum ∧
    (cart.Perm cart2 → Hook.getTotalAmount cart = Hook.getTotalAmount cart2) := by
  constructor
  · simpa using foldl_add_map_sum
      (fun item => item.wholesale_price * (item.quantity : ℚ)) cart 0
  · intro hp
    have h1 := foldl_add_map_sum
      (fun item => item.wholesale_price * (item.quantity : ℚ)) cart 0
    have h2 := foldl_add_map_sum
      (fun item => item.wholesale_price * (item.quantity : ℚ)) cart2 0
    unfold Hook.getTotalAmount
    rw [h1, h2, List.Perm.sum_eq (hp.map _)]

/-- Witness for C9 on a two-item cart and its reversal. -/
theorem c9_witness :
    Hook.getTotalAmount c9CartA =
      (c9CartA.map (fun item => item.wholesale_price * (item.quantity : ℚ))).sum ∧
    Hook.getTotalAmount c9CartA = Hook.getTotalAmount c9CartB :=
  ⟨(c9_getTotalAmount c9CartA c9CartB).1,
   (c9_getTotalAmount c9CartA c9CartB).2 (by decide)⟩

/-- C2 counterexample: with a cart already recording quantity 10 and a
variant snapshot whose available stock is 3, the failing `addToCart` call
leaves the cart unchanged, so the post-call cart quantity (10) exceeds the
snapshot's available stock — refuting "whether it succeeds or fails". -/
theorem c2_counterexample :
    (Hook.addToCart c2Cart c2Variant 5).cart = c2Cart ∧
    ¬ (Hook.currentCartQuantity (Hook.addToCart c2Cart c2Variant 5).cart c2Variant.id ≤
        Hook.availableStock c2Variant) := by
  constructor <;> decide

/-- C2 (amended): after a successful `addToCart(v, q)` the cart quantity of
`v` does not exceed `availableStock(v)` of the snapshot passed to the call;
a failing call leaves the cart unchanged (so the bound holds post-call
whenever it held pre-call). -/
theorem c2_amended (cart : List Hook.CartItem) (variant : Hook.ProductVariant)
    (quantity : Int) :
    ((Hook.addToCart cart variant quantity).success = true →
      Hook.currentCartQuantity (Hook.addToCart cart variant quantity).cart variant.id ≤
        Hook.availableStock variant) ∧
    ((Hook.addToCart cart variant quantity).success = false →
      (Hook.addToCart cart variant quantity).cart = cart) := by
  by_cases h1 : quantity ≤ 0
  · have he : Hook.addToCart cart variant quantity =
        { success := false, message := some Hook.CartMessage.invalidQuantity
          cart := cart } := by
      simp only [Hook.addToCart]
      rw [if_pos h1]
    rw [he]
    exact ⟨fun hs => by simp at hs, fun _ => rfl⟩
  by_cases h2 : Hook.currentCartQuantity cart variant.id + quantity >
      Hook.availableStock variant
  · have he : Hook.addToCart cart variant quantity =
        { success := false
          message := some (Hook.CartMessage.insufficientStock
            (Hook.availableStock variant - Hook.currentCartQuantity cart variant.id))
          cart := cart } := by
      simp only [Hook.addToCart]
      rw [if_neg h1, if_pos h2]
    rw [he]
    exact ⟨fun hs => by simp at hs, fun _ => rfl⟩
  cases hfind : Hook.cartFind cart variant.id with
  | some item =>
    have he : Hook.addToCart cart variant quantity =
        { success := true, message := none
          cart := cart.map (fun i =>
            if i.productId == variant.id then
              { i with
                quantity := min (i.quantity + quantity) (Hook.availableStock variant) }
            else i) } := by
      simp only [Hook.addToCart]
      rw [if_neg h1, if_neg h2, hfind]
    rw [he]
    refine ⟨fun _ => ?_, fun hs => by simp at hs⟩
    have hmap := find?_map_pred cart
      (fun i : Hook.CartItem =>
        if i.productId == variant.id then
          { i with quantity := min (i.quantity + quantity) (Hook.availableStock variant) }
        else i)
      (fun i => i.productId == variant.id)
      (fun i => by by_cases hi : (i.productId == variant.id) = true <;> simp [hi])
    have hfind2 : cart.find? (fun i : Hook.CartItem => i.productId == variant.id) =
        some item := hfind
    simp only [Hook.currentCartQuantity, Hook.cartFind]
    rw [hmap, hfind2]
    have hpred : (item.productId == variant.id) = true := by
      have h := List.find?_some hfind2
      simpa using h
    simp only [Option.map_some', Option.getD_some, hpred, if_pos]
    exact min_le_right _ _
  | none =>
    have he : Hook.addToCart cart variant quantity =
        { success := true, message := none
          cart := cart ++ [{ productId := variant.id
                             reference := variant.reference
                             size := variant.size.getD ""
                             description := variant.description.getD ""
                             wholesale_price := variant.wholesale_price.getD 0
                             quantity := quantity
                             stock := variant.stock }] } := by
      simp only [Hook.addToCart]
      rw [if_neg h1, if_neg h2, hfind]
    rw [he]
    refine ⟨fun _ => ?_, fun hs => by simp at hs⟩
    have hfind2 : cart.find? (fun i : Hook.CartItem => i.productId == variant.id) =
        none := hfind
    have hq0 : Hook.currentCartQuantity cart variant.id = 0 := by
      simp [Hook.currentCartQuantity, Hook.cartFind, hfind2]
    simp only [Hook.currentCartQuantity, Hook.cartFind]
    rw [find?_append_none _ _ _ hfind2]
    simp only [List.find?_cons, beq_self_eq_true, Option.map_some', Option.getD_some]
    rw [hq0] at h2
    omega

/-- Witness for the amended C2: a successful add of 3 units against a
variant with available stock 3. -/
theorem c2_witness :
    (Hook.addToCart [] c2Variant2 3).success = true ∧
    Hook.currentCartQuantity (Hook.addToCart [] c2Variant2 3).cart c2Variant2.id ≤
      Hook.availableStock c2Variant2 :=
  ⟨by decide, (c2_amended [] c2Variant2 3).1 (by decide)⟩

/-- C7 counterexample, against both cited implementations: in the hook, for
a cart item whose stored stock snapshot is 0, `updateQuantity(1, 5)`
removes the item instead of keeping it with the capped quantity
`min 5 stock = 0` that the claim's "caps ... before replacing the item's
quantity" prescribes; in `part_000`, `updateQuantity(1, -1)` is not a
silent no-op (it stores quantity −1) and `updateQuantity(1, 7)` stores 7,
exceeding the item's stored stock snapshot 5. -/
theorem c7_counterexample :
    Hook.updateQuantity c7Cart 1 5 = [] ∧
    Hook.updateQuantity c7Cart 1 5 ≠
      c7Cart.map (fun item =>
        if item.productId == 1 then { item with quantity := min 5 item.stock }
        else item) ∧
    PageA.updateQuantity c7Cart2 1 (-1) ≠ c7Cart2 ∧
    ((PageA.updateQuantity c7Cart2 1 (-1)).map (fun i => i.quantity)) = [-1] ∧
    ((PageA.updateQuantity c7Cart2 1 7).map (fun i => i.quantity)) = [7] ∧
    ¬ ((7 : Int) ≤ c7Item.stock) := by
  refine ⟨?_, ?_, ?_, ?_, ?_, ?_⟩ <;> decide

/-- C7 (amended): the two cited `updateQuantity` implementations diverge.
The hook's (`useShoppingCart.ts`): for a product present in the cart it is
a no-op for negative quantities; otherwise the quantity is capped at the
item's stored stock snapshot, and if the capped value is 0 (in particular
whenever `newQty = 0` and the snapshot is non-negative) the item is
removed, else the item's quantity becomes the capped value — other items
are untouched and the resulting quantity never exceeds the snapshot.
`part_000`'s: a quantity of 0 removes the item, and any other value —
negative or above the snapshot — replaces the item's quantity verbatim,
with no silent no-op and no cap. -/
theorem c7_amended (cart : List Hook.CartItem) (productId newQuantity : Int)
    (item : Hook.CartItem) (hfind : Hook.cartFind cart productId = some item) :
    (newQuantity < 0 → Hook.updateQuantity cart productId newQuantity = cart) ∧
    (0 ≤ newQuantity → min newQuantity item.stock = 0 →
      Hook.updateQuantity cart productId newQuantity =
        cart.filter (fun i => !(i.productId == productId))) ∧
    (0 ≤ newQuantity → min newQuantity item.stock ≠ 0 →
      Hook.updateQuantity cart productId newQuantity =
        cart.map (fun i =>
          if i.productId == productId then { i with quantity := min newQuantity item.stock }
          else i)) ∧
    (newQuantity = 0 →
      PageA.updateQuantity cart productId newQuantity =
        cart.filter (fun i => !(i.productId == productId))) ∧
    (newQuantity ≠ 0 →
      PageA.updateQuantity cart productId newQuantity =
        cart.map (fun i =>
          if i.productId == productId then { i with quantity := newQuantity }
          else i)) := by
  have hcap : (if newQuantity > item.stock then item.stock else newQuantity) =
      min newQuantity item.stock := by
    rcases le_or_lt newQuantity item.stock with h | h
    · rw [if_neg (by omega), min_eq_left h]
    · rw [if_pos h, min_eq_right (by omega)]
  refine ⟨?_, ?_, ?_, ?_, ?_⟩
  · intro h
    simp only [Hook.updateQuantity, hfind]
    rw [if_pos h]
  · intro h0 hmin
    simp only [Hook.updateQuantity, hfind]
    rw [if_neg (by omega), hcap, if_pos hmin]
  · intro h0 hmin
    simp only [Hook.updateQuantity, hfind]
    rw [if_neg (by omega), hcap, if_neg hmin]
  · intro h0
    simp only [PageA.updateQuantity]
    rw [if_pos h0]
  · intro h0
    simp only [PageA.updateQuantity]
    rw [if_neg h0]

/-- Witness for the amended C7 on a one-item cart with stock snapshot 5:
for the hook, no-op at −1, removal at 0, capped replacement at 7; for
`part_000`'s version, removal at 0 and verbatim replacement at 3. -/
theorem c7_witness :
    Hook.updateQuantity c7Cart2 1 (-1) = c7Cart2 ∧
    Hook.updateQuantity c7Cart2 1 0 = c7Cart2.filter (fun i => !(i.productId == 1)) ∧
    Hook.updateQuantity c7Cart2 1 7 =
      c7Cart2.map (fun i =>
        if i.productId == 1 then { i with quantity := min 7 c7Item.stock } else i) ∧
    PageA.updateQuantity c7Cart2 1 0 = c7Cart2.filter (fun i => !(i.productId == 1)) ∧
    PageA.updateQuantity c7Cart2 1 3 =
      c7Cart2.map (fun i =>
        if i.productId == 1 then { i with quantity := 3 } else i) :=
  ⟨(c7_amended c7Cart2 1 (-1) c7Item (by decide)).1 (by decide),
   (c7_amended c7Cart2 1 0 c7Item (by decide)).2.1 (by decide) (by decide),
   (c7_amended c7Cart2 1 7 c7Item (by decide)).2.2.1 (by decide) (by decide),
   (c7_amended c7Cart2 1 0 c7Item (by decide)).2.2.2.1 rfl,
   (c7_amended c7Cart2 1 3 c7Item (by decide)).2.2.2.2 (by decide)⟩

theorem beq_comm_int (a b : Int) : (a == b) = (b == a) := by
  rcases eq_or_ne a b with rfl | h
  · rfl
  · rw [beq_eq_false_iff_ne.mpr h, beq_eq_false_iff_ne.mpr h.symm]

theorem find?_eq_some_of_nodup_map {α β : Type} [BEq β] [LawfulBEq β]
    (l : List α) (f : α → β) (a : α) (ha : a ∈ l) (hnd : (l.map f).Nodup) :
    l.find? (fun x => f x == f a) = some a := by
  induction l with
  | nil => cases ha
  | cons b t ih =>
    rw [List.map_cons, List.nodup_cons] at hnd
    rcases List.mem_cons.mp ha with rfl | hat
    · exact List.find?_cons_of_pos _ (by simp)
    · have hne : (f b == f a) = false := by
        refine beq_eq_false_iff_ne.mpr (fun hba => hnd.1 ?_)
        rw [hba]
        exact List.mem_map_of_mem f hat
      rw [List.find?_cons_of_neg _ (by simp [hne]), ih hat hnd.2]

/-- With pairwise-distinct cart item ids, the sequential inventory loop acts
on the table as one pointwise rewrite. -/
theorem convertReservations_eq_map (cart : List PageB.CartItem) (db : List PageB.Product)
    (hnd : (cart.map (fun i => i.id)).Nodup) :
    PageB.convertReservations db cart = db.map (fun p =>
      match cart.find? (fun i => i.id == p.id) with
      | some item => { p with stock := max 0 (item.stock - item.quantity)
                              reserved_stock := max 0 (item.reserved_stock - item.quantity) }
      | none => p) := by
  induction cart generalizing db with
  | nil =>
    simp only [PageB.convertReservations, List.foldl_nil, List.find?_nil]
    exact (List.map_id' db).symm
  | cons item rest ih =>
    rw [List.map_cons, List.nodup_cons] at hnd
    have hstep : PageB.convertReservations db (item :: rest) =
        PageB.convertReservations
          (PageB.dbUpdateStockReserved db item.id
            (max 0 (item.stock - item.quantity))
            (max 0 (item.reserved_stock - item.quantity))) rest := rfl
    rw [hstep, ih _ hnd.2, PageB.dbUpdateStockReserved, List.map_map]
    refine List.map_congr_left (fun p _ => ?_)
    by_cases hp : (p.id == item.id) = true
    · have hid : p.id = item.id := by simpa using hp
      simp only [Function.comp_apply, hp, if_pos]
      have hnone : rest.find? (fun i =>
          i.id == ({ p with stock := max 0 (item.stock - item.quantity)
                            reserved_stock := max 0 (item.reserved_stock - item.quantity)
                   } : PageB.Product).id) = none := by
        refine List.find?_eq_none.mpr (fun i hi => ?_)
        simp only
        rw [hid]
        intro hcontra
        have : i.id = item.id := by simpa using hcontra
        exact hnd.1 (this ▸ List.mem_map_of_mem (fun i => i.id) hi)
      rw [hnone]
      have hcons : (item :: rest).find? (fun i => i.id == p.id) = some item := by
        refine List.find?_cons_of_pos _ ?_
        simp [hid]
      rw [hcons]
    · simp only [Function.comp_apply, hp, if_neg, Bool.not_eq_true]
      have hcons : (item :: rest).find? (fun i => i.id == p.id) =
          rest.find? (fun i => i.id == p.id) := by
        refine List.find?_cons_of_neg _ ?_
        rw [beq_comm_int]
        simp [hp]
      rw [hcons]

/-- C4 counterexample: a successful submission on a cart item whose snapshot
reserved_stock (3) lags the live row (5) writes `max(0, 3 - 2) = 1` into the
row, a decrease of 4 — not the exact decrease by the quantity (2) the claim
states, which would leave `5 - 2 = 3`. -/
theorem c4_counterexample :
    (PageB.submitOrder c4Backend (some c4Customer) [c4Item]).success = true ∧
    ((PageB.submitOrder c4Backend (some c4Customer) [c4Item]).backend.db.map
      (fun p => p.reserved_stock)) = [1] ∧
    c4Product.reserved_stock - c4Item.quantity ≠ (1 : Int) := by
  refine ⟨?_, ?_, ?_⟩ <;> decide

/-- C4 (amended): a successful submission rewrites, for every cart item, the
rows with the item's id with the absolute values `max(0, item.stock − qty)`
and `max(0, item.reserved_stock − qty)` computed from the cart snapshot;
when the live row still equals the snapshot and both fields are at least the
quantity, this is exactly `stock -= qty; reserved_stock -= qty`. -/
theorem c4_amended (backend : PageB.Backend) (customer : Option PageB.Customer)
    (cart : List PageB.CartItem)
    (hnd : (cart.map (fun i => i.id)).Nodup)
    (hs : (PageB.submitOrder backend customer cart).success = true) :
    (PageB.submitOrder backend customer cart).backend.db =
      backend.db.map (fun p =>
        match cart.find? (fun i => i.id == p.id) with
        | some item => { p with stock := max 0 (item.stock - item.quantity)
                                reserved_stock := max 0 (item.reserved_stock - item.quantity) }
        | none => p) ∧
    (∀ item ∈ cart, ∀ p ∈ backend.db, item.id = p.id →
      item.stock = p.stock → item.reserved_stock = p.reserved_stock →
      item.quantity ≤ p.stock → item.quantity ≤ p.reserved_stock →
      { p with stock := p.stock - item.quantity
               reserved_stock := p.reserved_stock - item.quantity } ∈
        (PageB.submitOrder backend customer cart).backend.db) := by
  cases customer with
  | none => simp [PageB.submitOrder] at hs
  | some c =>
    by_cases hc : cart = []
    · simp [PageB.submitOrder, hc] at hs
    · have hdb : (PageB.submitOrder backend (some c) cart).backend.db =
          PageB.convertReservations backend.db cart := by
        simp only [PageB.submitOrder]
        rw [if_neg hc]
      have hmap := convertReservations_eq_map cart backend.db hnd
      refine ⟨by rw [hdb, hmap], ?_⟩
      intro item hitem p hp hid hstock hres hq1 hq2
      rw [hdb, hmap]
      have hfind : cart.find? (fun i => i.id == p.id) = some item := by
        rw [← hid]
        exact find?_eq_some_of_nodup_map cart (fun i => i.id) item hitem hnd
      have hmem := List.mem_map_of_mem (fun q : PageB.Product =>
        match cart.find? (fun i => i.id == q.id) with
        | some it => { q with stock := max 0 (it.stock - it.quantity)
                              reserved_stock := max 0 (it.reserved_stock - it.quantity) }
        | none => q) hp
      have hval : (match cart.find? (fun i => i.id == p.id) with
          | some it => ({ p with stock := max 0 (it.stock - it.quantity)
                                 reserved_stock := max 0 (it.reserved_stock - it.quantity) } :
            PageB.Product)
          | none => p) =
          { p with stock := p.stock - item.quantity
                   reserved_stock := p.reserved_stock - item.quantity } := by
        rw [hfind]
        have e1 : max 0 (item.stock - item.quantity) = p.stock - item.quantity := by
          rw [hstock]
          exact max_eq_right (by omega)
        have e2 : max 0 (item.reserved_stock - item.quantity) =
            p.reserved_stock - item.quantity := by
          rw [hres]
          exact max_eq_right (by omega)
        simp only [e1, e2]
      rw [← hval]
      exact hmem

/-- Witness for the amended C4: snapshot equal to the live row (stock 5,
reserved 2), quantity 2 — the row ends at stock 3, reserved 0. -/
theorem c4_witness :
    ({ c4Product2 with
        stock := c4Product2.stock - c4Item2.quantity,
        reserved_stock := c4Product2.reserved_stock - c4Item2.quantity } :
      PageB.Product) ∈
      (PageB.submitOrder c4Backend2 (some c4Customer) [c4Item2]).backend.db :=
  (c4_amended c4Backend2 (some c4Customer) [c4Item2] (by decide) (by decide)).2
    c4Item2 (by decide) c4Product2 (by decide) rfl rfl rfl (by decide) (by decide)

theorem dbUpdateReserved_nonneg (db : List PageB.Product) (id v : Int)
    (hdb : ∀ p ∈ db, 0 ≤ p.reserved_stock) (hv : 0 ≤ v) :
    ∀ p ∈ PageB.dbUpdateReserved db id v, 0 ≤ p.reserved_stock := by
  intro p hp
  rcases List.mem_map.mp hp with ⟨q, hq, rfl⟩
  by_cases h : (q.id == id) = true
  · rw [if_pos h]
    exact hv
  · rw [if_neg h]
    exact hdb q hq

theorem dbUpdateStockReserved_nonneg (db : List PageB.Product) (id s r : Int)
    (hdb : ∀ p ∈ db, 0 ≤ p.reserved_stock) (hr : 0 ≤ r) :
    ∀ p ∈ PageB.dbUpdateStockReserved db id s r, 0 ≤ p.reserved_stock := by
  intro p hp
  rcases List.mem_map.mp hp with ⟨q, hq, rfl⟩
  by_cases h : (q.id == id) = true
  · rw [if_pos h]
    exact hr
  · rw [if_neg h]
    exact hdb q hq

theorem convertReservations_nonneg (cart : List PageB.CartItem) (db : List PageB.Product)
    (hdb : ∀ p ∈ db, 0 ≤ p.reserved_stock) :
    ∀ p ∈ PageB.convertReservations db cart, 0 ≤ p.reserved_stock := by
  induction cart generalizing db with
  | nil => exact hdb
  | cons item rest ih =>
    exact ih _ (dbUpdateStockReserved_nonneg db item.id _ _ hdb (le_max_left 0 _))

/-- C10: every reserved_stock value written by the eager-reservation page is
non-negative — `addToCart` writes snapshot + 1 (non-negative whenever the
snapshot obeys the invariant), the `updateQuantity` branches and the
submission loop write `max(0, ...)` — so all three operations preserve the
invariant `reserved_stock ≥ 0` across the products table. -/
theorem c10_reserved_nonneg (cart : List PageB.CartItem) (product : PageB.Product)
    (products : List PageB.Product) (productId newQuantity : Int)
    (customer : Option PageB.Customer) :
    (∀ db, (∀ p ∈ db, 0 ≤ p.reserved_stock) → 0 ≤ product.reserved_stock →
      ∀ p ∈ (PageB.addToCart db cart product).1, 0 ≤ p.reserved_stock) ∧
    (∀ db, (∀ p ∈ db, 0 ≤ p.reserved_stock) →
      ∀ p ∈ (PageB.updateQuantity db products cart productId newQuantity).1,
        0 ≤ p.reserved_stock) ∧
    (∀ backend : PageB.Backend, (∀ p ∈ backend.db, 0 ≤ p.reserved_stock) →
      ∀ p ∈ (PageB.submitOrder backend customer cart).backend.db,
        0 ≤ p.reserved_stock) := by
  refine ⟨?_, ?_, ?_⟩
  · intro db hdb hprod
    simp only [PageB.addToCart]
    split
    · exact hdb
    · exact dbUpdateReserved_nonneg db product.id _ hdb (by omega)
  · intro db hdb
    simp only [PageB.updateQuantity]
    split
    · exact hdb
    · split
      · exact dbUpdateReserved_nonneg db productId _ hdb (le_max_left 0 _)
      · split
        · exact hdb
        · exact dbUpdateReserved_nonneg db productId _ hdb (le_max_left 0 _)
  · intro backend hdb
    cases customer with
    | none => exact hdb
    | some c =>
      simp only [PageB.submitOrder]
      split
      · exact hdb
      · exact convertReservations_nonneg cart backend.db hdb

/-- Witness for C10 on a one-row table with reserved_stock 1. -/
theorem c10_witness :
    ((PageB.addToCart c10Db [] c10Product).1.all
      (fun p => decide (0 ≤ p.reserved_stock))) = true ∧
    ((PageB.updateQuantity c10Db c10Db c10Cart 1 2).1.all
      (fun p => decide (0 ≤ p.reserved_stock))) = true ∧
    ((PageB.submitOrder c10Backend (some c10Customer) c10Cart).backend.db.all
      (fun p => decide (0 ≤ p.reserved_stock))) = true := by
  have hdb : ∀ p ∈ c10Db, 0 ≤ p.reserved_stock := by
    intro p hp
    simp only [c10Db, List.mem_singleton] at hp
    subst hp
    decide
  have h1 := (c10_reserved_nonneg [] c10Product c10Db 1 2 (some c10Customer)).1
    c10Db hdb (by decide)
  have h2 := (c10_reserved_nonneg c10Cart c10Product c10Db 1 2 (some c10Customer)).2.1
    c10Db hdb
  have h3 := (c10_reserved_nonneg c10Cart c10Product c10Db 1 2 (some c10Customer)).2.2
    c10Backend hdb
  refine ⟨?_, ?_, ?_⟩ <;> rw [List.all_eq_true]
  · intro x hx
    simpa using h1 x hx
  · intro x hx
    simpa using h2 x hx
  · intro x hx
    simpa using h3 x hx

theorem lookupGroup_insertGrouped (groups : List (String × List Import.Candidate))
    (b' : String) (v : Import.Candidate) (b : String) :
    Import.lookupGroup (Import.insertGrouped groups b' v) b =
      if b' = b then Import.lookupGroup groups b ++ [v]
      else Import.lookupGroup groups b := by
  induction groups with
  | nil =>
    by_cases h : b' = b
    · rw [if_pos h]
      simp [Import.insertGrouped, Import.lookupGroup, h]
    · rw [if_neg h]
      simp [Import.insertGrouped, Import.lookupGroup, h]
  | cons g rest ih =>
    obtain ⟨gb, gvs⟩ := g
    simp only [Import.insertGrouped]
    by_cases h1 : gb = b'
    · rw [if_pos h1]
      by_cases h2 : gb = b
      · have hb : b' = b := h1 ▸ h2
        simp [Import.lookupGroup, h2, hb]
      · have hb : b' ≠ b := fun hh => h2 (h1.trans hh)
        simp [Import.lookupGroup, h2, hb]
    · rw [if_neg h1]
      by_cases h2 : gb = b
      · have hb : b' ≠ b := fun hh => h1 (h2.trans hh.symm)
        simp [Import.lookupGroup, h2, hb]
      · simp [Import.lookupGroup, h2, ih]

theorem buildGroupsAux_fst (rows : List Import.Candidate)
    (acc : List Import.Candidate × List (String × List Import.Candidate)) :
    (Import.buildGroupsAux rows acc).1 =
      acc.1 ++ rows.filter (fun v => v.bar_code.isNone) := by
  induction rows generalizing acc with
  | nil => simp [Import.buildGroupsAux]
  | cons v rest ih =>
    cases hv : v.bar_code with
    | some b =>
      simp only [Import.buildGroupsAux, hv]
      rw [ih]
      simp [List.filter_cons, hv]
    | none =>
      simp only [Import.buildGroupsAux, hv]
      rw [ih]
      simp [List.filter_cons, hv, List.append_assoc]

theorem buildGroupsAux_lookup (rows : List Import.Candidate)
    (acc : List Import.Candidate × List (String × List Import.Candidate)) (b : String) :
    Import.lookupGroup (Import.buildGroupsAux rows acc).2 b =
      Import.lookupGroup acc.2 b ++ rows.filter (fun v => v.bar_code == some b) := by
  induction rows generalizing acc with
  | nil => simp [Import.buildGroupsAux]
  | cons v rest ih =>
    cases hv : v.bar_code with
    | some b' =>
      simp only [Import.buildGroupsAux, hv]
      rw [ih, lookupGroup_insertGrouped]
      by_cases h : b' = b
      · rw [if_pos h]
        have hb : (v.bar_code == some b) = true := by
          rw [hv]
          simp [h]
        simp [List.filter_cons, hb, List.append_assoc]
      · rw [if_neg h]
        have hb : (v.bar_code == some b) = false := by
          rw [hv]
          simp [h]
        simp [List.filter_cons, hb]
    | none =>
      simp only [Import.buildGroupsAux, hv]
      rw [ih]
      have hb : (v.bar_code == some b) = false := by
        rw [hv]
        rfl
      simp [List.filter_cons, hb]

theorem lookupGroup_mem (groups : List (String × List Import.Candidate)) (b : String)
    (h : Import.lookupGroup groups b ≠ []) :
    (b, Import.lookupGroup groups b) ∈ groups := by
  induction groups with
  | nil => simp [Import.lookupGroup] at h
  | cons g rest ih =>
    by_cases hg : (g.1 == b) = true
    · have hg2 : g.1 = b := by simpa using hg
      have hl : Import.lookupGroup (g :: rest) b = g.2 := by
        simp [Import.lookupGroup, hg]
      rw [hl, ← hg2, Prod.mk.eta]
      exact List.mem_cons_self g rest
    · have hl : Import.lookupGroup (g :: rest) b = Import.lookupGroup rest b := by
        simp [Import.lookupGroup, hg]
      rw [hl] at h ⊢
      exact List.mem_cons_of_mem _ (ih h)

theorem mergeGroups_eq (groups : List (String × List Import.Candidate)) :
    Import.mergeGroups groups =
      ((groups.map (fun g =>
          if g.2.length = 1 then g.2 else Import.mergeGroup g.2)).flatten,
       (groups.map (fun g => g.2.length - 1)).sum) := by
  suffices h : ∀ acc : List Import.Candidate × Nat,
      groups.foldl (fun acc g =>
        if g.2.length = 1 then (acc.1 ++ g.2, acc.2)
        else (acc.1 ++ Import.mergeGroup g.2, acc.2 + (g.2.length - 1))) acc =
      (acc.1 ++ (groups.map (fun g =>
          if g.2.length = 1 then g.2 else Import.mergeGroup g.2)).flatten,
       acc.2 + (groups.map (fun g => g.2.length - 1)).sum) by
    simpa [Import.mergeGroups] using h ([], 0)
  induction groups with
  | nil =>
    intro acc
    simp
  | cons g rest ih =>
    intro acc
    by_cases h1 : g.2.length = 1
    · simp only [List.foldl_cons, if_pos h1]
      rw [ih]
      simp [h1, List.append_assoc]
    · simp only [List.foldl_cons, if_neg h1]
      rw [ih]
      simp [h1, List.append_assoc, Nat.add_assoc]

/-- C5: the barcode-merge step of the import. The group the pipeline builds
for a barcode `b` is exactly the candidate rows carrying `b` (in row order);
the `merged` counter is the sum of `group size - 1` over the built groups
(so a group of `k > 1` rows adds `k - 1`); every group with more than one
member is emitted as a single record whose stock is the group's stock sum
and whose other fields come from the group's first row; rows with a missing
barcode pass through unmerged; and the spec's concrete example — two rows
with the same barcode and stocks 2 and 3 — yields one record with stock 5
and `merged = 1`. -/
theorem c5_barcode_merge (rows : List Import.Candidate) (b : String) :
    (Import.mergeByBarcode rows).2 =
      (((Import.buildGroups rows).2).map (fun g => g.2.length - 1)).sum ∧
    Import.lookupGroup (Import.buildGroups rows).2 b =
      rows.filter (fun v => v.bar_code == some b) ∧
    (∀ first rest, rows.filter (fun v => v.bar_code == some b) = first :: rest →
      rest ≠ [] →
      { first with stock := ((first :: rest).map (fun c => c.stock)).sum } ∈
        (Import.mergeByBarcode rows).1) ∧
    (∀ v ∈ rows, v.bar_code = none → v ∈ (Import.mergeByBarcode rows).1) ∧
    Import.mergeByBarcode [c5Row1, c5Row2] = ([{ c5Row1 with stock := 5 }], 1) := by
  have hlookup : Import.lookupGroup (Import.buildGroups rows).2 b =
      rows.filter (fun v => v.bar_code == some b) := by
    have h := buildGroupsAux_lookup rows ([], []) b
    simpa [Import.buildGroups, Import.lookupGroup] using h
  refine ⟨?_, hlookup, ?_, ?_, ?_⟩
  · show (Import.mergeGroups (Import.buildGroups rows).2).2 = _
    rw [mergeGroups_eq]
  · intro first rest hfilter hne
    have hl : Import.lookupGroup (Import.buildGroups rows).2 b = first :: rest := by
      rw [hlookup, hfilter]
    have hmem := lookupGroup_mem _ b (by rw [hl]; simp)
    rw [hl] at hmem
    have hfst : (Import.mergeByBarcode rows).1 =
        (Import.buildGroups rows).1 ++
          (Import.mergeGroups (Import.buildGroups rows).2).1 := rfl
    rw [hfst, mergeGroups_eq]
    refine List.mem_append_right _ ?_
    refine List.mem_flatten.mpr
      ⟨if (first :: rest).length = 1 then first :: rest
        else Import.mergeGroup (first :: rest), ?_, ?_⟩
    · exact List.mem_map_of_mem _ hmem
    · have hlen : (first :: rest).length ≠ 1 := by
        cases rest with
        | nil => exact absurd rfl hne
        | cons x t => simp
      rw [if_neg hlen]
      cases rest with
      | nil => exact absurd rfl hne
      | cons x t => simp [Import.mergeGroup]
  · intro v hv hbc
    have hfst : (Import.mergeByBarcode rows).1 =
        (Import.buildGroups rows).1 ++
          (Import.mergeGroups (Import.buildGroups rows).2).1 := rfl
    rw [hfst]
    refine List.mem_append_left _ ?_
    have h := buildGroupsAux_fst rows ([], [])
    have hfst3 : (Import.buildGroups rows).1 =
        rows.filter (fun v => v.bar_code.isNone) := by
      simpa [Import.buildGroups] using h
    rw [hfst3]
    refine List.mem_filter.mpr ⟨hv, ?_⟩
    rw [hbc]
    rfl
  · decide

/-- Witness for C5: three rows, two sharing barcode `x1` (stocks 2 and 3)
and one without barcode — the merged record (stock 5) and the untouched
barcode-less row both appear in the produced rows. -/
theorem c5_witness :
    ({ c5Row1 with stock := (([c5Row1, c5Row2]).map (fun c => c.stock)).sum } ∈
      (Import.mergeByBarcode [c5Row1, c5Row2, c5Row3]).1) ∧
    c5Row3 ∈ (Import.mergeByBarcode [c5Row1, c5Row2, c5Row3]).1 :=
  ⟨(c5_barcode_merge [c5Row1, c5Row2, c5Row3] "x1").2.2.1 c5Row1 [c5Row2]
      (by decide) (by decide),
   (c5_barcode_merge [c5Row1, c5Row2, c5Row3] "x1").2.2.2.1 c5Row3 (by decide) rfl⟩

theorem mapLookup_some_mem (catalog : List Import.Row) (k : String) (r : Import.Row)
    (h : Import.mapLookup catalog k = some r) :
    r ∈ catalog ∧ Import.rowKeyOf r = k := by
  unfold Import.mapLookup at h
  have hmem : r ∈ catalog.filter (fun x => Import.rowKeyOf x == k) :=
    List.mem_of_mem_getLast? h
  have h2 := List.mem_filter.mp hmem
  exact ⟨h2.1, by simpa using h2.2⟩

theorem mapLookup_isSome_of_mem (catalog : List Import.Row) (r : Import.Row)
    (hr : r ∈ catalog) : (Import.mapLookup catalog (Import.rowKeyOf r)).isSome := by
  unfold Import.mapLookup
  refine List.getLast?_isSome.mpr (fun hnil => ?_)
  have hmem : r ∈ catalog.filter (fun x => Import.rowKeyOf x == Import.rowKeyOf r) :=
    List.mem_filter.mpr ⟨hr, by simp⟩
  rw [hnil] at hmem
  exact absurd hmem (List.not_mem_nil r)

theorem foldl_applyUpdate_eq_map (ups : List (Nat × Import.Candidate))
    (catalog : List Import.Row) :
    ups.foldl (fun c u => Import.applyUpdate c u.1 u.2) catalog =
      catalog.map (fun r => ups.foldl Import.updRowStep r) := by
  induction ups generalizing catalog with
  | nil =>
    simp only [List.foldl_nil]
    exact (List.map_id' catalog).symm
  | cons u rest ih =>
    simp only [List.foldl_cons]
    have hstep : Import.applyUpdate catalog u.1 u.2 =
        catalog.map (fun r => Import.updRowStep r u) := rfl
    rw [hstep, ih, List.map_map]
    rfl

theorem updRowStep_id (r : Import.Row) (u : Nat × Import.Candidate) :
    (Import.updRowStep r u).id = r.id := by
  unfold Import.updRowStep
  split <;> rfl

theorem rowKeyOf_updRowStep (row : Import.Row) (u : Nat × Import.Candidate)
    (h : (row.id == u.1) = true) :
    Import.rowKeyOf (Import.updRowStep row u) =
      Import.rowKey u.2.reference u.2.size := by
  unfold Import.updRowStep
  rw [if_pos h]
  rfl

theorem foldl_updRowStep_of_ne (ups : List (Nat × Import.Candidate)) (r : Import.Row)
    (h : ∀ u ∈ ups, r.id ≠ u.1) : ups.foldl Import.updRowStep r = r := by
  induction ups with
  | nil => rfl
  | cons u rest ih =>
    rw [List.foldl_cons]
    have h1 : Import.updRowStep r u = r := by
      unfold Import.updRowStep
      rw [if_neg (by simp only [beq_iff_eq]; exact h u (List.mem_cons_self u rest))]
    rw [h1]
    exact ih (fun u' hu' => h u' (List.mem_cons_of_mem u hu'))

theorem nodup_map_id_inj (catalog : List Import.Row)
    (hnd : (catalog.map (fun r => r.id)).Nodup)
    (r1 r2 : Import.Row) (h1 : r1 ∈ catalog) (h2 : r2 ∈ catalog)
    (hid : r1.id = r2.id) : r1 = r2 :=
  List.inj_on_of_nodup_map hnd h1 h2 hid

theorem foldl_updRowStep_keeps_key (catalog : List Import.Row)
    (hnd : (catalog.map (fun r => r.id)).Nodup) :
    ∀ (ups : List (Nat × Import.Candidate)) (row : Import.Row),
      (∀ u ∈ ups, ∃ r ∈ catalog,
        Import.rowKeyOf r = Import.rowKey u.2.reference u.2.size ∧ r.id = u.1) →
      (∃ r0 ∈ catalog, r0.id = row.id ∧ Import.rowKeyOf r0 = Import.rowKeyOf row) →
      (ups.foldl Import.updRowStep row).id = row.id ∧
        Import.rowKeyOf (ups.foldl Import.updRowStep row) = Import.rowKeyOf row := by
  intro ups
  induction ups with
  | nil => exact fun row _ _ => ⟨rfl, rfl⟩
  | cons u rest ih =>
    intro row hups hrow
    have hstep : (Import.updRowStep row u).id = row.id ∧
        Import.rowKeyOf (Import.updRowStep row u) = Import.rowKeyOf row := by
      by_cases h : (row.id == u.1) = true
      · refine ⟨updRowStep_id row u, ?_⟩
        rw [rowKeyOf_updRowStep row u h]
        rcases hups u (List.mem_cons_self u rest) with ⟨r, hrmem, hrkey, hrid⟩
        rcases hrow with ⟨r0, hr0mem, hr0id, hr0key⟩
        have hbeq : row.id = u.1 := by simpa using h
        have hid2 : r0.id = r.id := by omega
        have hr0r : r0 = r := nodup_map_id_inj catalog hnd r0 r hr0mem hrmem hid2
        rw [← hrkey, ← hr0r]
        exact hr0key
      · have h1 : Import.updRowStep row u = row := by
          unfold Import.updRowStep
          rw [if_neg h]
        rw [h1]
        exact ⟨rfl, rfl⟩
    have hrow2 : ∃ r0 ∈ catalog, r0.id = (Import.updRowStep row u).id ∧
        Import.rowKeyOf r0 = Import.rowKeyOf (Import.updRowStep row u) := by
      rcases hrow with ⟨r0, h1, h2, h3⟩
      exact ⟨r0, h1, by rw [hstep.1]; exact h2, by rw [hstep.2]; exact h3⟩
    have hrest := ih (Import.updRowStep row u)
      (fun u' hu' => hups u' (List.mem_cons_of_mem u hu')) hrow2
    rw [List.foldl_cons]
    exact ⟨hrest.1.trans hstep.1, hrest.2.trans hstep.2⟩

theorem insertRows_fst_mem (vs : List Import.Candidate) :
    ∀ (catalog : List Import.Row) (n : Nat) (r : Import.Row), r ∈ catalog →
      r ∈ (Import.insertRows catalog n vs).1 := by
  induction vs with
  | nil => exact fun catalog n r hr => hr
  | cons w rest ih =>
    intro catalog n r hr
    exact ih _ _ r (List.mem_append_left _ hr)

theorem insertRows_mem_of_mem (vs : List Import.Candidate) :
    ∀ (catalog : List Import.Row) (n : Nat) (v : Import.Candidate), v ∈ vs →
      ∃ id, n ≤ id ∧ Import.rowOfCandidate id v ∈ (Import.insertRows catalog n vs).1 := by
  induction vs with
  | nil =>
    intro catalog n v hv
    exact absurd hv (List.not_mem_nil v)
  | cons w rest ih =>
    intro catalog n v hv
    rcases List.mem_cons.mp hv with rfl | hv2
    · refine ⟨n, le_refl n, ?_⟩
      exact insertRows_fst_mem rest _ _ _
        (List.mem_append_right _ (List.mem_singleton.mpr rfl))
    · rcases ih (catalog ++ [Import.rowOfCandidate n w]) (n + 1) v hv2 with ⟨id, hle, hmem⟩
      exact ⟨id, by omega, hmem⟩

theorem classify_toUpdate_spec (mode : Import.Mode) (catalog : List Import.Row) :
    ∀ (produced : List Import.Candidate) (plan : Import.UpsertPlan),
      (∀ u ∈ plan.toUpdate, ∃ r, Import.mapLookup catalog
        (Import.rowKey u.2.reference u.2.size) = some r ∧ r.id = u.1) →
      ∀ u ∈ (produced.foldl (Import.classifyStep mode catalog) plan).toUpdate,
        ∃ r, Import.mapLookup catalog (Import.rowKey u.2.reference u.2.size) = some r ∧
          r.id = u.1 := by
  intro produced
  induction produced with
  | nil => exact fun plan hplan => hplan
  | cons v rest ih =>
    intro plan hplan
    rw [List.foldl_cons]
    apply ih
    intro u hu
    unfold Import.classifyStep at hu
    split at hu
    · rename_i existing heq
      split at hu
      · exact hplan u hu
      · split at hu
        · rcases List.mem_append.mp hu with hu2 | hu2
          · exact hplan u hu2
          · have hueq := List.mem_singleton.mp hu2
            subst hueq
            exact ⟨existing, heq, rfl⟩
        · exact hplan u hu
    · exact hplan u hu

theorem classify_toInsert_mono (mode : Import.Mode) (catalog : List Import.Row) :
    ∀ (produced : List Import.Candidate) (plan : Import.UpsertPlan)
      (v : Import.Candidate), v ∈ plan.toInsert →
      v ∈ (produced.foldl (Import.classifyStep mode catalog) plan).toInsert := by
  intro produced
  induction produced with
  | nil => exact fun plan v hv => hv
  | cons w rest ih =>
    intro plan v hv
    rw [List.foldl_cons]
    apply ih
    unfold Import.classifyStep
    split
    · split
      · exact hv
      · split
        · exact hv
        · exact hv
    · exact List.mem_append_left _ hv

theorem classify_toInsert_of_none (mode : Import.Mode) (catalog : List Import.Row) :
    ∀ (produced : List Import.Candidate) (plan : Import.UpsertPlan)
      (v : Import.Candidate), v ∈ produced →
      Import.mapLookup catalog (Import.rowKey v.reference v.size) = none →
      v ∈ (produced.foldl (Import.classifyStep mode catalog) plan).toInsert := by
  intro produced
  induction produced with
  | nil =>
    intro plan v hv _
    exact absurd hv (List.not_mem_nil v)
  | cons w rest ih =>
    intro plan v hv hnone
    rw [List.foldl_cons]
    rcases List.mem_cons.mp hv with rfl | hv2
    · apply classify_toInsert_mono
      unfold Import.classifyStep
      rw [hnone]
      exact List.mem_append_right _ (List.mem_singleton.mpr rfl)
    · exact ih _ v hv2 hnone

theorem classify_skip_all (catalog : List Import.Row) :
    ∀ (produced : List Import.Candidate) (plan : Import.UpsertPlan),
      (∀ v ∈ produced,
        (Import.mapLookup catalog (Import.rowKey v.reference v.size)).isSome) →
      produced.foldl (Import.classifyStep Import.Mode.skip catalog) plan =
        { toInsert := plan.toInsert, toUpdate := plan.toUpdate
          skipped := plan.skipped + produced.length } := by
  intro produced
  induction produced with
  | nil =>
    intro plan _
    simp
  | cons v rest ih =>
    intro plan hall
    rw [List.foldl_cons]
    rcases Option.isSome_iff_exists.mp (hall v (List.mem_cons_self v rest)) with ⟨r, hr⟩
    have hstep : Import.classifyStep Import.Mode.skip catalog plan v =
        { toInsert := plan.toInsert, toUpdate := plan.toUpdate
          skipped := plan.skipped + 1 } := by
      unfold Import.classifyStep
      rw [hr]
    rw [hstep, ih _ (fun w hw => hall w (List.mem_cons_of_mem v hw))]
    have harith : plan.skipped + 1 + rest.length = plan.skipped + (rest.length + 1) := by
      omega
    simp only [harith, List.length_cons]

/-- After any complete run, every produced row's (reference, size) key is
present in the catalog: looked-up rows survive (updates rewrite matching
keys in place, inserted rows are appended with fresh ids). -/
theorem runImport_key_present (mode : Import.Mode) (catalog : List Import.Row)
    (nextId : Nat) (rows : List Import.Candidate)
    (hnd : (catalog.map (fun r => r.id)).Nodup)
    (hid : ∀ r ∈ catalog, r.id < nextId)
    (v : Import.Candidate)
    (hv : v ∈ (Import.mergeByBarcode (Import.validCandidates rows)).1) :
    (Import.mapLookup (Import.runImport mode catalog nextId rows).catalog
      (Import.rowKey v.reference v.size)).isSome := by
  have hcat : (Import.runImport mode catalog nextId rows).catalog =
      (Import.classify mode catalog
          (Import.mergeByBarcode (Import.validCandidates rows)).1).toUpdate.foldl
        (fun c u => Import.applyUpdate c u.1 u.2)
        (Import.insertRows catalog nextId
          (Import.classify mode catalog
            (Import.mergeByBarcode (Import.validCandidates rows)).1).toInsert).1 := rfl
  set produced := (Import.mergeByBarcode (Import.validCandidates rows)).1 with hprodeq
  set plan := Import.classify mode catalog produced with hplaneq
  rw [hcat, foldl_applyUpdate_eq_map]
  have hups : ∀ u ∈ plan.toUpdate, ∃ r ∈ catalog,
      Import.rowKeyOf r = Import.rowKey u.2.reference u.2.size ∧ r.id = u.1 := by
    intro u hu
    have h0 : ∀ u ∈ (Import.UpsertPlan.mk [] [] 0).toUpdate,
        ∃ r, Import.mapLookup catalog
          (Import.rowKey u.2.reference u.2.size) = some r ∧ r.id = u.1 := by
      intro u hu2
      exact absurd hu2 (List.not_mem_nil u)
    rcases classify_toUpdate_spec mode catalog produced _ h0 u hu with ⟨r, hl, hrid⟩
    rcases mapLookup_some_mem catalog _ r hl with ⟨hmem, hkey⟩
    exact ⟨r, hmem, hkey, hrid⟩
  cases hl : Import.mapLookup catalog (Import.rowKey v.reference v.size) with
  | none =>
    have hins : v ∈ plan.toInsert :=
      classify_toInsert_of_none mode catalog produced _ v hv hl
    rcases insertRows_mem_of_mem plan.toInsert catalog nextId v hins with ⟨id2, hle, hmem⟩
    have hrow : plan.toUpdate.foldl Import.updRowStep (Import.rowOfCandidate id2 v) =
        Import.rowOfCandidate id2 v := by
      apply foldl_updRowStep_of_ne
      intro u hu
      rcases hups u hu with ⟨r, hrmem, _, hrid⟩
      have hlt := hid r hrmem
      have hcid : (Import.rowOfCandidate id2 v).id = id2 := rfl
      omega
    have hmem2 := List.mem_map_of_mem
      (fun r => plan.toUpdate.foldl Import.updRowStep r) hmem
    simp only [hrow] at hmem2
    have hsome := mapLookup_isSome_of_mem _ _ hmem2
    have hkey : Import.rowKeyOf (Import.rowOfCandidate id2 v) =
        Import.rowKey v.reference v.size := rfl
    rw [hkey] at hsome
    exact hsome
  | some r =>
    rcases mapLookup_some_mem catalog _ r hl with ⟨hrmem, hrkey⟩
    have hrins : r ∈ (Import.insertRows catalog nextId plan.toInsert).1 :=
      insertRows_fst_mem plan.toInsert catalog nextId r hrmem
    have himg := foldl_updRowStep_keeps_key catalog hnd plan.toUpdate r hups
      ⟨r, hrmem, rfl, rfl⟩
    have hmem2 := List.mem_map_of_mem
      (fun row => plan.toUpdate.foldl Import.updRowStep row) hrins
    have hsome := mapLookup_isSome_of_mem _ _ hmem2
    simp only [himg.2, hrkey] at hsome
    exact hsome

/-- C6: re-running the import in "skip" mode on the catalog produced by a
first complete run of the same unchanged rows yields success = 0,
updated = 0, the same merged count, and skipped equal to the number of
produced (post-validation, post-merge) rows.  Hypotheses: catalog row ids
are pairwise distinct and below the next serial id, as in the real table. -/
theorem c6_skip_rerun (mode : Import.Mode) (catalog : List Import.Row) (nextId : Nat)
    (rows : List Import.Candidate)
    (hnd : (catalog.map (fun r => r.id)).Nodup)
    (hid : ∀ r ∈ catalog, r.id < nextId) :
    (Import.runImport Import.Mode.skip
        (Import.runImport mode catalog nextId rows).catalog
        (Import.runImport mode catalog nextId rows).nextId rows).counts.success = 0 ∧
    (Import.runImport Import.Mode.skip
        (Import.runImport mode catalog nextId rows).catalog
        (Import.runImport mode catalog nextId rows).nextId rows).counts.updated = 0 ∧
    (Import.runImport Import.Mode.skip
        (Import.runImport mode catalog nextId rows).catalog
        (Import.runImport mode catalog nextId rows).nextId rows).counts.merged =
      (Import.runImport mode catalog nextId rows).counts.merged ∧
    (Import.runImport Import.Mode.skip
        (Import.runImport mode catalog nextId rows).catalog
        (Import.runImport mode catalog nextId rows).nextId rows).counts.skipped =
      (Import.mergeByBarcode (Import.validCandidates rows)).1.length := by
  have hall : ∀ v ∈ (Import.mergeByBarcode (Import.validCandidates rows)).1,
      (Import.mapLookup (Import.runImport mode catalog nextId rows).catalog
        (Import.rowKey v.reference v.size)).isSome :=
    fun v hv => runImport_key_present mode catalog nextId rows hnd hid v hv
  have hplan := classify_skip_all (Import.runImport mode catalog nextId rows).catalog
    (Import.mergeByBarcode (Import.validCandidates rows)).1
    { toInsert := [], toUpdate := [], skipped := 0 } hall
  refine ⟨?_, ?_, rfl, ?_⟩
  · show (Import.classify Import.Mode.skip
        (Import.runImport mode catalog nextId rows).catalog
        (Import.mergeByBarcode (Import.validCandidates rows)).1).toInsert.length = 0
    unfold Import.classify
    rw [hplan]
    rfl
  · show (Import.classify Import.Mode.skip
        (Import.runImport mode catalog nextId rows).catalog
        (Import.mergeByBarcode (Import.validCandidates rows)).1).toUpdate.length = 0
    unfold Import.classify
    rw [hplan]
    rfl
  · show (Import.classify Import.Mode.skip
        (Import.runImport mode catalog nextId rows).catalog
        (Import.mergeByBarcode (Import.validCandidates rows)).1).skipped =
      (Import.mergeByBarcode (Import.validCandidates rows)).1.length
    unfold Import.classify
    rw [hplan]
    simp

/-- Witness for C6: one valid row imported into an empty catalog, then
re-imported in skip mode — nothing is inserted or updated and the single
produced row is skipped. -/
theorem c6_witness :
    (Import.runImport Import.Mode.skip
        (Import.runImport Import.Mode.update [] 0 [c6Row]).catalog
        (Import.runImport Import.Mode.update [] 0 [c6Row]).nextId
        [c6Row]).counts.success = 0 ∧
    (Import.runImport Import.Mode.skip
        (Import.runImport Import.Mode.update [] 0 [c6Row]).catalog
        (Import.runImport Import.Mode.update [] 0 [c6Row]).nextId
        [c6Row]).counts.skipped = 1 := by
  have h := c6_skip_rerun Import.Mode.update [] 0 [c6Row] (by simp)
    (fun r hr => absurd hr (List.not_mem_nil r))
  exact ⟨h.1, h.2.2.2.trans (by decide)⟩

theorem isEmpty_eq_decide {α : Type} (l : List α) : l.isEmpty = decide (l.length = 0) := by
  cases l <;> simp

theorem beq_str_eq_decide (a b : String) : (a == b) = decide (a = b) := by
  by_cases h : a = b <;> simp [h]

theorem ite_filter_eq {α : Type} (c : Prop) [Decidable c] (p : α → Bool) (l : List α) :
    (if c then l.filter p else l) = l.filter (fun a => !(decide c) || p a) := by
  by_cases h : c
  · simp [h]
  · simp [h]

/-- C8: `applyFilters` returns exactly the product groups satisfying the
conjunction of the free-text search (imposed only when the term is
non-empty), membership of brand / section / product line in the selected
sets (imposed only when non-empty), wholesale price within the inclusive
range, and — when `inStockOnly` — some variant with positive available
stock. -/
theorem c8_applyFilters (productGroups : List PageA.ProductGroup) (searchTerm : String)
    (filters : PageA.Filters) :
    PageA.applyFilters productGroups searchTerm filters =
      productGroups.filter (PageA.specFilterPred searchTerm filters) := by
  simp only [PageA.applyFilters]
  rw [ite_filter_eq, ite_filter_eq, ite_filter_eq, ite_filter_eq, ite_filter_eq]
  simp only [List.filter_filter]
  refine List.filter_congr (fun g _ => ?_)
  unfold PageA.specFilterPred
  by_cases h1 : searchTerm = "" <;>
    by_cases h2 : filters.brands = [] <;>
      by_cases h3 : filters.sections = [] <;>
        by_cases h4 : filters.productLines = [] <;>
          cases h5 : filters.inStockOnly <;>
            simp [h1, h2, h3, h4, h5, List.length_pos, isEmpty_eq_decide,
              List.length_eq_zero, beq_str_eq_decide, Bool.and_assoc, Bool.and_comm,
              Bool.and_left_comm]
